import Mathlib

/-!
Shallow embedding of the `aiida-inq` convergence core, checked against the
repository's natural-language specification.

Embedded source files:
* `src/aiida_inq/workflows/convergence.py` — `InqConvergenceWorkChain`
  (`run_energy` / `check_energy` / `run_kspacing` / `check_kspacing` /
  `results`, the two-stage sweep driver).
* `src/aiida_inq/parsers/inq.py` — `InqParser.parse`.
* `src/aiida_inq/calculations/inq.py` — `InqCalculation.prepare_for_submission`
  (the run-type handling part).

Python conventions used in the model:
* machine-level numbers appearing in comparisons are embedded as `Int`
  (total energies) and `ℚ` (k-point spacings); the code only ever compares
  them and threads them through, so no floating-point rounding is involved
  in any embedded decision;
* a Python `dict` is an insertion-ordered association list where assigning
  to an existing key replaces the value in place (`dictInsert`);
* an uncaught Python exception is an `Except.error` / a dedicated
  constructor (`PyErr`), never a silent default;
* Python's `in` on strings is substring containment (`pyStrIn`).
-/

namespace AiidaInq

/-- A Python value that can sit in the `energy_cutoff` slot of the
convergence workchain: the integer `0` it is initialised with, or the
literal value-with-unit string taken from `energy_list` (for example
`"30 Ry"`). -/
inductive PyVal where
  | int (n : Int)
  | str (s : String)
deriving DecidableEq, Repr

/-- Python exceptions that the embedded code can raise (and leave uncaught). -/
inductive PyErr where
  | indexError
  | attributeError (attr : String)
  | keyError (key : String)
deriving DecidableEq, Repr

/-- Does `needle` occur at the start of `hay` (on character lists)? -/
def charsStart : List Char → List Char → Bool
  | [], _ => true
  | _ :: _, [] => false
  | a :: as, b :: bs => a == b && charsStart as bs

/-- Does `needle` occur contiguously anywhere in `hay` (on character lists)? -/
def charsSub : List Char → List Char → Bool
  | n, [] => n.isEmpty
  | n, c :: t => charsStart n (c :: t) || charsSub n t

/-- Python `needle in hay` on strings: substring containment. -/
def pyStrIn (needle hay : String) : Bool :=
  charsSub needle.toList hay.toList

/-- Tokenizer behind `pySplitWs`: walk the characters, `cur` holding the
(reversed) token being built. -/
def wsTokens : List Char → List Char → List String
  | [], cur => if cur = [] then [] else [⟨cur.reverse⟩]
  | c :: rest, cur =>
    if c.isWhitespace then
      (if cur = [] then [] else [⟨cur.reverse⟩]) ++ wsTokens rest []
    else
      wsTokens rest (c :: cur)

/-- Python `str.split()` with no argument: split on whitespace runs,
dropping empty pieces. -/
def pySplitWs (s : String) : List String :=
  wsTokens s.toList []

/-- Python `dict` assignment `d[k] = v` on an insertion-ordered association
list: replace in place when the key exists, append otherwise. -/
def dictInsert {κ α : Type} [DecidableEq κ] (d : List (κ × α)) (k : κ) (v : α) :
    List (κ × α) :=
  if d.any (fun p => p.1 = k) then
    d.map (fun p => if p.1 = k then (k, v) else p)
  else
    d ++ [(k, v)]

/-- The view `check_energy` has of one finished `InqBaseWorkchain` of the
energy stage: `workchain.is_finished_ok`, the reported total energy
`outputs.output_parameters['energy']['total']`, and the cutoff string the
trial was submitted with (`inputs.inq.parameters['electrons']['cutoff']`). -/
structure ETrial where
  finished_ok : Bool
  energy : Int
  cutoff : String
deriving DecidableEq, Repr

/-- Outcome of one of the `check_*` outline steps of
`InqConvergenceWorkChain`: an AiiDA exit code returned with the reported
label (`failed`), an uncaught Python exception (`excepted`), or normal
completion carrying the value stored into the context plus the per-trial
results dictionary (`passed`). -/
inductive StageCheck (κ α : Type) where
  | failed (code : Nat) (label : κ)
  | excepted
  | passed (selected : α) (results : List (κ × Int))
deriving DecidableEq, Repr

/-- The selected value of a stage check, when the stage passed. -/
def stageSelected {κ α : Type} : StageCheck κ α → Option α
  | .passed v _ => some v
  | _ => none

/-- The loop body of `InqConvergenceWorkChain.check_energy`
(`src/aiida_inq/workflows/convergence.py:209-221`): iterate the context
dictionary in insertion order; on the first trial with
`not workchain.is_finished_ok` return exit code 401
(`INQ_CALCULATION_FAILED`) reporting that label; otherwise update
`energy_cutoff` whenever `energy < min_energy` — note that the source never
reassigns `min_energy`, so the threshold stays at its initial `0` for the
whole loop — and record the energy in the results dictionary. -/
def checkEnergyLoop :
    List (String × ETrial) → Int → PyVal → List (String × Int) →
      StageCheck String PyVal
  | [], _, energy_cutoff, res => .passed energy_cutoff res
  | (label, t) :: rest, min_energy, energy_cutoff, res =>
    if t.finished_ok = false then
      .failed 401 label
    else
      checkEnergyLoop rest min_energy
        (if t.energy < min_energy then .str t.cutoff else energy_cutoff)
        (dictInsert res label t.energy)

/-- `InqConvergenceWorkChain.check_energy`: the context namespace
`self.ctx.energy` is `none` when no energy trial was ever sent to the
context (then the attribute access raises an uncaught `AttributeError`,
modelled as `excepted`); otherwise run the inspection loop with
`min_energy, energy_cutoff = 0, 0`. -/
def check_energy (ctxEnergy : Option (List (String × ETrial))) :
    StageCheck String PyVal :=
  match ctxEnergy with
  | none => .excepted
  | some trials => checkEnergyLoop trials 0 (.int 0) []

/-- The value `check_energy` actually stores: the cutoff of the last
candidate in sweep order whose energy is strictly negative, or the initial
integer `0` when no candidate has a negative energy. -/
def lastNegCutoff (trials : List (String × ETrial)) : PyVal :=
  match (trials.filter (fun p => p.2.energy < 0)).getLast? with
  | some p => .str p.2.cutoff
  | none => .int 0

/-- One Stage-1 submission made by `InqConvergenceWorkChain.run_energy`:
`idx` is the global submission counter (the order `self.submit` is called
across the sweep), `label` the `metadata.label` string
`energy_<value with blanks replaced by underscores>`, `ctxKey` the key the
future is stored under inside the `self.ctx.energy` namespace, and `cutoff`
the literal value written into `parameters.electrons.cutoff`. -/
structure EnergySub where
  idx : Nat
  label : String
  ctxKey : String
  cutoff : String
deriving DecidableEq, Repr

/-- The context key / label stem `'_'.join(energy.split())` used by
`run_energy` for one entry of `energy_list`. -/
def energyKey (v : String) : String :=
  "_".intercalate (pySplitWs v)

/-- `InqConvergenceWorkChain.run_energy`
(`src/aiida_inq/workflows/convergence.py:179-200`): one
`InqBaseWorkchain` submission per entry of `energy_list`, in list order,
each with `parameters.electrons = {'cutoff': energy}` and label
`energy_<key>`; the future is sent to the context as `energy.<key>`. -/
def run_energy (energy_list : List String) : List EnergySub :=
  (energy_list.enum).map
    (fun p => ⟨p.1, "energy_" ++ energyKey p.2, energyKey p.2, p.2⟩)

/-- An element of the Python list `kpoint_mesh` in
`InqConvergenceWorkChain.run_kspacing`: the list is seeded with the two
strings `['', '']` and afterwards only `(kspacing, mesh)` tuples are
appended, so it is heterogeneous. -/
inductive MeshEntry where
  | s (v : String)
  | p (spacing : ℚ) (mesh : String)
deriving DecidableEq, Repr

/-- Python `kpoints not in e` for the element `e = kpoint_mesh[:][1]`:
substring containment when `e` is a string; tuple membership — equality
with one of the components — when `e` is a `(spacing, mesh)` tuple, where
comparing the mesh string with the float spacing is always `False`. -/
def entryContains (kpoints : String) : MeshEntry → Bool
  | .s v => pyStrIn kpoints v
  | .p _ mesh => kpoints == mesh

/-- One Stage-2 submission made by `run_kspacing`: submission counter,
the spacing it came from (also the context key, modelled by the spacing
value itself), the `parameters.electrons.cutoff` carried along, and the
`parameters.kpoints.grid` string. -/
structure KSub where
  idx : Nat
  spacing : ℚ
  cutoff : PyVal
  grid : String
deriving DecidableEq, Repr

/-- The loop of `InqConvergenceWorkChain.run_kspacing`
(`src/aiida_inq/workflows/convergence.py:237-256`): for each spacing,
derive the mesh string `kpoints`; the guard is literally
`if kpoints not in kpoint_mesh[:][1]`, i.e. a containment test against the
single element at index 1 of a copy of `kpoint_mesh` — which is the seed
string `''` forever, since appends only grow the tail — and on success the
`(kspacing, kpoints)` tuple is appended and a trial submitted. `mf` is the
external mesh derivation for the input structure (`orm.KpointsData`),
`cut` the cutoff fixed for the whole stage, `i` the submission counter. -/
def runKspacingLoop (mf : ℚ → String) (cut : PyVal) :
    List ℚ → Nat → List MeshEntry → List KSub → List KSub
  | [], _, _, acc => acc
  | kspacing :: rest, i, kpoint_mesh, acc =>
    let kpoints := mf kspacing
    let second := (kpoint_mesh.get? 1).getD (.s "")
    if entryContains kpoints second = false then
      runKspacingLoop mf cut rest (i + 1)
        (kpoint_mesh ++ [.p kspacing kpoints])
        (acc ++ [⟨i, kspacing, cut, kpoints⟩])
    else
      runKspacingLoop mf cut rest i kpoint_mesh acc

/-- `InqConvergenceWorkChain.run_kspacing`: fix
`parameters.electrons = {'cutoff': self.ctx.energy_cutoff}` (wholly
replacing the electrons section, so no baseline cutoff survives), seed
`kpoint_mesh = ['', '']` and run the submission loop; `i0` is the number
of submissions already made by Stage 1. -/
def run_kspacing (mf : ℚ → String) (cut : PyVal) (kspacing_list : List ℚ)
    (i0 : Nat) : List KSub :=
  runKspacingLoop mf cut kspacing_list i0 [.s "", .s ""] []

/-- What the trial runner (`InqBaseWorkchain`) eventually reports for one
submitted trial: `workchain.is_finished_ok` and the total energy
`outputs.output_parameters['energy']['total']`. -/
structure Outcome where
  finished_ok : Bool
  energy : Int
deriving DecidableEq, Repr

/-- The loop body of `InqConvergenceWorkChain.check_kspacing`
(`src/aiida_inq/workflows/convergence.py:264-279`): same shape as the
energy check — exit code 401 on the first failed trial, otherwise update
the selected spacing whenever `energy < min_energy`, with `min_energy`
again never reassigned from its initial `0`. The dictionary key
`float('.'.join(label.split('_')))` round-trips the spacing the label was
built from, so the key is modelled by the spacing value itself. -/
def checkKspacingLoop :
    List (ℚ × Outcome) → Int → ℚ → List (ℚ × Int) → StageCheck ℚ ℚ
  | [], _, kspacing, res => .passed kspacing res
  | (label, o) :: rest, min_energy, kspacing, res =>
    if o.finished_ok = false then
      .failed 401 label
    else
      checkKspacingLoop rest min_energy
        (if o.energy < min_energy then label else kspacing)
        (dictInsert res label o.energy)

/-- `InqConvergenceWorkChain.check_kspacing`: `none` context namespace
(no k-spacing trial ever submitted) raises an uncaught `AttributeError`;
otherwise run the loop with `min_energy, kspacing = 0, 0`. -/
def check_kspacing (ctxKspacing : Option (List (ℚ × Outcome))) :
    StageCheck ℚ ℚ :=
  match ctxKspacing with
  | none => .excepted
  | some trials => checkKspacingLoop trials 0 0 []

/-- Inputs of one `InqConvergenceWorkChain` run: the two sweep lists, the
external k-mesh derivation `mesh` for the input structure (what
`KpointsData.set_kpoints_mesh_from_density` followed by
`' '.join(str(k) for k in ...)` computes), and the trial-runner
environment `env` giving each submission — numbered in submission order —
its eventual outcome. -/
structure SweepInput where
  energy_list : List String
  kspacing_list : List ℚ
  mesh : ℚ → String
  env : Nat → Outcome

/-- Terminal outcome of the whole sweep: exit code 401 from the energy
check (with the reported context label), exit code 401 from the k-spacing
check (with the reported float label), an uncaught Python exception, or
normal completion emitting the `suggested` output dictionary
`{'energy': cutoff, 'kspacing': spacing}`. -/
inductive SweepOutcome where
  | calcFailed1 (code : Nat) (label : String)
  | calcFailed2 (code : Nat) (label : ℚ)
  | excepted
  | suggested (energy_cutoff : PyVal) (kspacing : ℚ)
deriving DecidableEq, Repr

/-- Everything externally visible about one sweep: Stage-1 submissions,
the Stage-1 selection (once computed), Stage-2 submissions, and the
terminal outcome. -/
structure SweepTrace where
  stage1Subs : List EnergySub
  selectedCutoff : Option PyVal
  stage2Subs : List KSub
  outcome : SweepOutcome
deriving Repr

/-- The `self.ctx.energy` namespace as `check_energy` sees it: `none`
when `run_energy` sent nothing to the context, otherwise the insertion
ordered dictionary built by the successive `to_context` calls, each trial
paired with its outcome from the environment and its submitted cutoff. -/
def stage1Ctx (inp : SweepInput) : Option (List (String × ETrial)) :=
  let subs := run_energy inp.energy_list
  if subs.isEmpty then none
  else
    some (((subs.foldl (fun d s => dictInsert d s.ctxKey s) []).map
      (fun p =>
        (p.1, ⟨(inp.env p.2.idx).finished_ok, (inp.env p.2.idx).energy,
          p.2.cutoff⟩))))

/-- The `self.ctx.kspacing` namespace as `check_kspacing` sees it, given
the Stage-2 submissions. -/
def stage2Ctx (inp : SweepInput) (subs : List KSub) :
    Option (List (ℚ × Outcome)) :=
  if subs.isEmpty then none
  else
    some ((subs.foldl (fun d s => dictInsert d s.spacing s) []).map
      (fun p => (p.1, inp.env p.2.idx)))

/-- The sweep as the outline `setup; run_energy; check_energy;
run_kspacing; check_kspacing; results` executes it: an outline step that
returns an exit code (or raises) terminates the workchain, so later steps
— Stage-2 submission included — never run and no `suggested` output is
emitted. -/
def runSweep (inp : SweepInput) : SweepTrace :=
  let subs1 := run_energy inp.energy_list
  match check_energy (stage1Ctx inp) with
  | .failed code label => ⟨subs1, none, [], .calcFailed1 code label⟩
  | .excepted => ⟨subs1, none, [], .excepted⟩
  | .passed energy_cutoff _ =>
    let subs2 := run_kspacing inp.mesh energy_cutoff inp.kspacing_list
      subs1.length
    ⟨subs1, some energy_cutoff, subs2,
      match check_kspacing (stage2Ctx inp subs2) with
      | .failed code label => .calcFailed2 code label
      | .excepted => .excepted
      | .passed kspacing _ => .suggested energy_cutoff kspacing⟩

/-- Modelled from the spec: the K-Mesh Deriver behind
`KpointsData.set_kpoints_mesh_from_density(kspacing, force_parity=False)`
(aiida-core, not part of this repository's files). Per the spec, each
reciprocal-lattice vector length is divided by `spacing` and mapped to the
smallest positive integer count achieving at least that density, with no
forced parity: component `max 1 ⌈length / spacing⌉`. `lattice` is the
triple of reciprocal-lattice vector lengths. -/
def derive (lattice : ℚ × ℚ × ℚ) (spacing : ℚ) : ℤ × ℤ × ℤ :=
  (max 1 ⌈lattice.1 / spacing⌉, max 1 ⌈lattice.2.1 / spacing⌉,
    max 1 ⌈lattice.2.2 / spacing⌉)

/-- `' '.join([str(k) for k in kpoints])` on a derived mesh triple. -/
def meshString (m : ℤ × ℤ × ℤ) : String :=
  toString m.1 ++ " " ++ toString m.2.1 ++ " " ++ toString m.2.2

/-- Everything `InqParser.parse` (`src/aiida_inq/parsers/inq.py:30-100`)
reads: the two configured file names, whether the input parameters carry a
`results` key, the `retrieve_temporary_list` of the calculation, and the
(`'\n'`-stripped) lines of the two files. -/
structure ParseInput where
  output_filename : String
  results_filename : String
  hasResultsKey : Bool
  retrieved : List String
  outputLines : List String
  resultsLines : List String
deriving Repr

/-- Exit codes `InqParser.parse` can return: the two generic retrieval
codes and the success `ExitCode(0)`. -/
inductive ParseExit where
  | missingOutputFiles
  | stdoutIncomplete
  | done
deriving DecidableEq, Repr

/-- A value of the parsed `result_dict[state]` dictionaries: the seed
entry `'unit': 'eV'`, or one parsed energy line
`result_dict['energy'][values[0]] = float(values[-2]) * getattr(units,
values[-1])` kept symbolically as the value token and the unit name (the
floating-point multiplication itself is external `ase.units` data). -/
inductive RVal where
  | unitTag (u : String)
  | scalar (valueTok : String) (unitName : String)
deriving DecidableEq, Repr

/-- The `result_dict` built by the parsing loop: the `'energy'` and
`'forces'` sections are absent until their marker line has been seen;
forces rows are kept as their whitespace tokens (the numpy float
conversion is external). -/
structure ResultDict where
  energy : Option (List (String × RVal))
  forces : Option (List (List String))
deriving DecidableEq, Repr

/-- The attribute names of `ase.units` that the unit column of an energy
line may name (`getattr(units, values[-1])`); any other name raises an
uncaught `AttributeError`. The list is the fixed set of energy-like unit
attributes the repository's inputs use. -/
def aseUnitNames : List String :=
  ["eV", "Ha", "Hartree", "Ry", "Rydberg", "kJ", "kcal", "mol", "J", "C",
    "fs", "second", "Ang", "Bohr", "nm", "K", "THz", "GPa", "Pascal",
    "Debye", "alpha", "invcm"]

/-- The parser's section state: `None`, `'energy'` or `'forces'`. -/
inductive PState where
  | energy
  | forces
deriving DecidableEq, Repr

/-- The line loop of `InqParser.parse`
(`src/aiida_inq/parsers/inq.py:78-96`): marker lines (substring tests
`'Energy:' in line`, `'Forces:' in line`) reset their section and
`continue`; a blank line clears the state; inside the energy section a
line is whitespace-tokenized as `values` and stored under `values[0]`
with value token `values[-2]` and unit `values[-1]` — indexing an empty
token list raises `IndexError`, a one-token line makes `values[-2]` reach
outside the list, and an unknown unit name raises `AttributeError`;
inside the forces section the token row is appended. -/
def parseLines :
    List String → Option PState → ResultDict → Except PyErr ResultDict
  | [], _, rd => .ok rd
  | line :: rest, state, rd =>
    if pyStrIn "Energy:" line then
      parseLines rest (some .energy)
        { rd with energy := some [("unit", .unitTag "eV")] }
    else if pyStrIn "Forces:" line then
      parseLines rest (some .forces) { rd with forces := some [] }
    else
      let state := if line = "" then none else state
      match state with
      | some .energy =>
        match rd.energy with
        | none => .error (.keyError "energy")
        | some d =>
          let values := pySplitWs line
          match values.getLast? with
          | none => .error .indexError
          | some unitName =>
            if (aseUnitNames.contains unitName) = false then
              .error (.attributeError unitName)
            else if values.length < 2 then
              .error .indexError
            else
              parseLines rest state
                { rd with energy := some (dictInsert d (values.headD "")
                    (.scalar (values.getD (values.length - 2) "")
                      unitName)) }
      | some .forces =>
        match rd.forces with
        | none => .error (.keyError "forces")
        | some rows =>
          parseLines rest state
            { rd with forces := some (rows ++ [pySplitWs line]) }
      | none => parseLines rest none rd

/-- The `files_expected` list of `InqParser.parse`: the output file name,
plus the results file name when the input parameters have a `results`
key. -/
def filesExpected (inp : ParseInput) : List String :=
  [inp.output_filename] ++
    (if inp.hasResultsKey then [inp.results_filename] else [])

/-- `set(files_expected) <= set(files_retrieved)` as the parser checks
it. -/
def filesOk (inp : ParseInput) : Bool :=
  (filesExpected inp).all (fun f => inp.retrieved.contains f)

/-- The lines the result loop runs over: the results file's lines when a
results file name is configured and truthy (`if results_filename:`, with
`results_filename = ''` unless the input parameters carry a `results`
key), the output file's lines otherwise
(`src/aiida_inq/parsers/inq.py:73-76`). -/
def parseChosenLines (inp : ParseInput) : List String :=
  if (if inp.hasResultsKey then inp.results_filename else "") ≠ "" then
    inp.resultsLines
  else
    inp.outputLines

/-- The tail of `InqParser.parse` after the sentinel check
(`src/aiida_inq/parsers/inq.py:71-100`): run the result loop and either
propagate its uncaught exception or emit the `output_parameters` node and
return `ExitCode(0)`. -/
def parseResultPhase (inp : ParseInput) :
    Except PyErr (ParseExit × Option ResultDict) :=
  match parseLines (parseChosenLines inp) none ⟨none, none⟩ with
  | .error e => .error e
  | .ok rd => .ok (.done, some rd)

/-- The completion check of `InqParser.parse`
(`src/aiida_inq/parsers/inq.py:64-69`): the sentinel test is literally
`'AiiDA DONE' in output_lines[-1]` — a substring test on the last line,
which on an empty line list raises an uncaught `IndexError` — and its
failure returns `ERROR_OUTPUT_STDOUT_INCOMPLETE` before anything is
emitted. -/
def parseSentinelPhase (inp : ParseInput) :
    Except PyErr (ParseExit × Option ResultDict) :=
  match inp.outputLines.getLast? with
  | none => .error .indexError
  | some lastLine =>
    if pyStrIn "AiiDA DONE" lastLine = false then
      .ok (.stdoutIncomplete, none)
    else
      parseResultPhase inp

/-- `InqParser.parse`: check the expected files against the retrieve
list, returning `ERROR_MISSING_OUTPUT_FILES` when one is absent
(`src/aiida_inq/parsers/inq.py:39-52`), then run the sentinel check and
the result loop. The second pair component is the emitted
`output_parameters` node, `none` when the parser returned before
`self.out`. -/
def parse (inp : ParseInput) :
    Except PyErr (ParseExit × Option ResultDict) :=
  if filesOk inp = false then
    .ok (.missingOutputFiles, none)
  else
    parseSentinelPhase inp

/-- The parameter-handling slice of
`InqCalculation.prepare_for_submission`
(`src/aiida_inq/calculations/inq.py:148-162`) that the run-type claim is
about: the script's per-parameter lines, the run line, and the retrieve
list of the produced `CalcInfo`. The cell and ion lines come from external
`ase`/`numpy` geometry and are out of scope. -/
structure PrepOut where
  paramLines : List String
  runLine : String
  retrieveTemporary : List String
deriving DecidableEq, Repr

/-- Python `parameters.pop('run', None)`: the value when the key exists
(`None` otherwise) and the dictionary without the key. -/
def dictPop {α : Type} (d : List (String × α)) (k : String) :
    Option α × List (String × α) :=
  ((d.find? (fun p => p.1 == k)).map (fun p => p.2),
    d.filter (fun p => (p.1 == k) = false))

/-- `InqCalculation.prepare_for_submission`, parameter handling: the code
runs `run_type = parameters.pop('run', None)` and immediately
`run_type = list(run_type.keys())[0]` — so when no `run` section exists,
`None.keys()` raises an uncaught `AttributeError` before the
`if run_type is None` guard is ever reached (and that guard, besides
being unreachable, only evaluates `self.exit_codes.NO_RUN_TYPE_SPECIFIED`
without returning it); an empty `run` section raises `IndexError` on
`[0]`. Otherwise one `inq <section> <key> <value>` line per remaining
parameter, the `inq run <type>` line, and
`retrieve_temporary_list = ['aiida.out', 'aiida.err']`. -/
def prepare_for_submission
    (parameters : List (String × List (String × String))) :
    Except PyErr PrepOut :=
  match dictPop parameters "run" with
  | (none, _) => .error (.attributeError "keys")
  | (some runSec, rest) =>
    match runSec with
    | [] => .error .indexError
    | (run_type, _) :: _ =>
      .ok ⟨(rest.map (fun sec => sec.2.map
              (fun kv => "inq " ++ sec.1 ++ " " ++ kv.1 ++ " " ++ kv.2))).flatten,
        "inq run " ++ run_type, ["aiida.out", "aiida.err"]⟩

/-- The symbolic exit code `202 NO_RUN_TYPE_SPECIFIED` declared by
`InqCalculation.define` (`src/aiida_inq/calculations/inq.py:95-96`). -/
def NO_RUN_TYPE_SPECIFIED : Nat := 202

/-- A trial-runner environment whose first submission fails and whose
later submissions succeed with energy `-1` eV. -/
def envOneFailed : Nat → Outcome :=
  fun n => if n = 0 then ⟨false, 0⟩ else ⟨true, -1⟩

/-- A trial-runner environment where every submission succeeds with
energy `-1` eV. -/
def envAllOk : Nat → Outcome :=
  fun _ => ⟨true, -1⟩

/-- A concrete sweep whose first Stage-1 trial fails: two cutoff values,
one k-spacing value, a constant external mesh derivation. -/
def sweepFailInput : SweepInput :=
  ⟨["8 Ha", "10 Ha"], [2], fun _ => "2 2 2", envOneFailed⟩

/-- A concrete sweep in which every trial succeeds: one cutoff value and
one k-spacing value. -/
def sweepOkInput : SweepInput :=
  ⟨["8 Ha"], [2], fun _ => "2 2 2", envAllOk⟩

/-- A concrete sweep whose energy sweep specification is empty. -/
def emptySweepInput : SweepInput :=
  ⟨[], [], fun _ => "", envAllOk⟩

/-- The candidate set named by the specification's selection example,
as `check_energy` sees it: labels `a`, `b`, `c`, energies `-5`, `-12`,
`-3`, parameter values `10`, `20`, `30`, all trials finished ok. -/
def exampleCandidates : List (String × ETrial) :=
  [("a", ⟨true, -5, "10"⟩), ("b", ⟨true, -12, "20"⟩),
    ("c", ⟨true, -3, "30"⟩)]

/-! ### Helper lemmas -/

/-- `getLast?` of a cons: the last element of the tail, defaulting to the
head. -/
theorem getLast?_cons_getD {α : Type} (a : α) (l : List α) :
    (a :: l).getLast? = some (l.getLast?.getD a) := by
  induction l generalizing a with
  | nil => rfl
  | cons b t ih => rw [List.getLast?_cons_cons, ih]; rfl

/-- Assigning a fresh key to a Python dictionary appends the pair. -/
theorem dictInsert_fresh {κ α : Type} [DecidableEq κ]
    (d : List (κ × α)) (k : κ) (v : α) (h : ∀ p ∈ d, p.1 ≠ k) :
    dictInsert d k v = d ++ [(k, v)] := by
  have hany : d.any (fun p => p.1 = k) = false := by
    simp only [List.any_eq_false, decide_eq_true_eq]
    exact h
  simp [dictInsert, hany]

/-- Sending futures with pairwise distinct keys to the context builds
exactly the association list of the submissions, in submission order. -/
theorem foldl_toContext {κ β : Type} [DecidableEq κ] (key : β → κ) :
    ∀ (l : List β) (d : List (κ × β)),
      (∀ p ∈ d, ∀ b ∈ l, p.1 ≠ key b) → (l.map key).Nodup →
      l.foldl (fun d b => dictInsert d (key b) b) d =
        d ++ l.map (fun b => (key b, b)) := by
  intro l
  induction l with
  | nil => intro d _ _; simp
  | cons b t ih =>
    intro d hd hnd
    have hfresh : ∀ p ∈ d, p.1 ≠ key b :=
      fun p hp => hd p hp b (List.mem_cons_self b t)
    have hnd2 : (∀ x ∈ t, ¬key x = key b) ∧ (t.map key).Nodup := by
      simpa using hnd
    have hd2 : ∀ p ∈ d ++ [(key b, b)], ∀ c ∈ t, p.1 ≠ key c := by
      intro p hp c hc
      rcases List.mem_append.mp hp with hp | hp
      · exact hd p hp c (List.mem_cons_of_mem b hc)
      · have hpb : p = (key b, b) := by simpa using hp
        subst hpb
        exact fun hcontra => hnd2.1 c hc (by simpa using hcontra.symm)
    calc (b :: t).foldl (fun d b => dictInsert d (key b) b) d
        = t.foldl (fun d b => dictInsert d (key b) b) (d ++ [(key b, b)]) := by
          simp [List.foldl_cons, dictInsert_fresh d (key b) b hfresh]
      _ = d ++ [(key b, b)] ++ t.map (fun c => (key c, c)) :=
          ih (d ++ [(key b, b)]) hd2 hnd2.2
      _ = d ++ (b :: t).map (fun c => (key c, c)) := by simp

/-- If some trial in the inspected dictionary failed, the energy-check
loop returns exit code 401 with a failing trial's label, whatever the
threshold, selection and results accumulators hold. -/
theorem checkEnergyLoop_failed :
    ∀ (l : List (String × ETrial)) (m : Int) (c : PyVal)
      (r : List (String × Int)),
      (∃ p ∈ l, p.2.finished_ok = false) →
      ∃ p ∈ l, p.2.finished_ok = false ∧
        checkEnergyLoop l m c r = .failed 401 p.1 := by
  intro l
  induction l with
  | nil => intro _ _ _ h; simp at h
  | cons q t ih =>
    obtain ⟨label, tr⟩ := q
    intro m c r hex
    by_cases hq : tr.finished_ok = false
    · refine ⟨(label, tr), List.mem_cons_self _ t, hq, ?_⟩
      simp only [checkEnergyLoop]
      rw [if_pos hq]
    · have hex' : ∃ p ∈ t, p.2.finished_ok = false := by
        rcases hex with ⟨p, hp, hpf⟩
        rcases List.mem_cons.mp hp with rfl | hp
        · exact absurd hpf hq
        · exact ⟨p, hp, hpf⟩
      obtain ⟨p, hp, hpf, heq⟩ := ih m
        (if tr.energy < m then .str tr.cutoff else c)
        (dictInsert r label tr.energy) hex'
      refine ⟨p, List.mem_cons_of_mem _ hp, hpf, ?_⟩
      simp only [checkEnergyLoop]
      rw [if_neg hq]
      exact heq

/-- When every inspected trial finished ok, the energy-check loop passes
and selects the cutoff of the last negative-energy candidate, defaulting
to the incoming accumulator: the threshold argument `0` is never updated
by the source loop. -/
theorem checkEnergyLoop_passed :
    ∀ (l : List (String × ETrial)) (c : PyVal) (r : List (String × Int)),
      (∀ p ∈ l, p.2.finished_ok = true) →
      stageSelected (checkEnergyLoop l 0 c r) =
        some (match (l.filter (fun p => p.2.energy < 0)).getLast? with
          | some p => PyVal.str p.2.cutoff
          | none => c) := by
  intro l
  induction l with
  | nil => intro c r _; rfl
  | cons q t ih =>
    obtain ⟨label, tr⟩ := q
    intro c r hok
    have hq : tr.finished_ok = true := hok _ (List.mem_cons_self _ t)
    have hok' : ∀ p ∈ t, p.2.finished_ok = true :=
      fun p hp => hok p (List.mem_cons_of_mem _ hp)
    simp only [checkEnergyLoop]
    rw [if_neg (by simp [hq])]
    rw [ih _ _ hok']
    by_cases hneg : tr.energy < 0
    · rw [show (if tr.energy < 0 then PyVal.str tr.cutoff else c) =
        PyVal.str tr.cutoff from if_pos hneg]
      have hfc : List.filter (fun p => p.2.energy < 0) ((label, tr) :: t) =
          (label, tr) :: List.filter (fun p => p.2.energy < 0) t := by
        simp [List.filter_cons, hneg]
      rw [hfc, getLast?_cons_getD]
      rcases hlast : ((t.filter (fun p => p.2.energy < 0)).getLast?) with _ | p
      · rw [hlast]; rfl
      · rw [hlast]; rfl
    · rw [show (if tr.energy < 0 then PyVal.str tr.cutoff else c) = c from
        if_neg hneg]
      have hfc : List.filter (fun p => p.2.energy < 0) ((label, tr) :: t) =
          List.filter (fun p => p.2.energy < 0) t := by
        simp [List.filter_cons, hneg]
      rw [hfc]

/-- Every submission the k-spacing loop appends carries the stage's fixed
cutoff. -/
theorem runKspacingLoop_cutoff (mf : ℚ → String) (cut : PyVal) :
    ∀ (l : List ℚ) (i : Nat) (km : List MeshEntry) (acc : List KSub),
      (∀ s ∈ acc, s.cutoff = cut) →
      ∀ s ∈ runKspacingLoop mf cut l i km acc, s.cutoff = cut := by
  intro l
  induction l with
  | nil => intro i km acc hacc; simpa [runKspacingLoop] using hacc
  | cons sp t ih =>
    intro i km acc hacc s hs
    simp only [runKspacingLoop] at hs
    by_cases hguard :
        entryContains (mf sp) (((km.get? 1).getD (.s ""))) = false
    · rw [if_pos hguard] at hs
      refine ih (i + 1) (km ++ [.p sp (mf sp)])
        (acc ++ [⟨i, sp, cut, mf sp⟩]) ?_ s hs
      intro u hu
      rcases List.mem_append.mp hu with hu | hu
      · exact hacc u hu
      · simp at hu; subst hu; rfl
    · rw [if_neg hguard] at hs
      exact ih i km acc hacc s hs

/-- The result phase either raises the loop's uncaught exception or
emits a result with `ExitCode(0)`. -/
theorem parseResultPhase_shape (inp : ParseInput) :
    (∃ e, parseResultPhase inp = .error e) ∨
      ∃ rd, parseResultPhase inp = .ok (.done, some rd) := by
  unfold parseResultPhase
  cases hpl : parseLines (parseChosenLines inp) none ⟨none, none⟩ with
  | error e => exact .inl ⟨e, rfl⟩
  | ok rd => exact .inr ⟨rd, rfl⟩

/-- Equation for the sentinel phase on an empty output file. -/
theorem parseSentinelPhase_none (inp : ParseInput)
    (hl : inp.outputLines.getLast? = none) :
    parseSentinelPhase inp = .error .indexError := by
  unfold parseSentinelPhase
  rw [hl]

/-- Equation for the sentinel phase once the last output line is known. -/
theorem parseSentinelPhase_some (inp : ParseInput) (lastLine : String)
    (hl : inp.outputLines.getLast? = some lastLine) :
    parseSentinelPhase inp =
      if pyStrIn "AiiDA DONE" lastLine = false then
        .ok (.stdoutIncomplete, none)
      else
        parseResultPhase inp := by
  unfold parseSentinelPhase
  rw [hl]

/-- After the file check, `parse` either raises, returns the
incompleteness code with no emitted result, or succeeds with an emitted
result — it never returns `ERROR_MISSING_OUTPUT_FILES`. -/
theorem parseSentinelPhase_shape (inp : ParseInput) :
    (∃ e, parseSentinelPhase inp = .error e) ∨
      parseSentinelPhase inp = .ok (.stdoutIncomplete, none) ∨
      ∃ rd, parseSentinelPhase inp = .ok (.done, some rd) := by
  cases hl : inp.outputLines.getLast? with
  | none => exact .inl ⟨.indexError, parseSentinelPhase_none inp hl⟩
  | some lastLine =>
    rw [parseSentinelPhase_some inp lastLine hl]
    by_cases hs : pyStrIn "AiiDA DONE" lastLine = false
    · rw [if_pos hs]
      exact .inr (.inl rfl)
    · rw [if_neg hs]
      rcases parseResultPhase_shape inp with ⟨e, he⟩ | ⟨rd, hrd⟩
      · exact .inl ⟨e, he⟩
      · exact .inr (.inr ⟨rd, hrd⟩)

/-- When the expected files are all retrieved, `parse` runs the sentinel
phase. -/
theorem parse_filesOk (inp : ParseInput) (hf : filesOk inp = true) :
    parse inp = parseSentinelPhase inp := by
  unfold parse
  rw [if_neg (by simp [hf])]

/-! ### Claim theorems -/

/-- C1, counterexample. The Result Selector specification says the
selection returns the `paramValue` of the minimum `energy` over the full
candidate set — `20` for the candidates
`{(a,-5,10),(b,-12,20),(c,-3,30)}` — but `check_energy` selects `30`:
the source compares each energy against a `min_energy` threshold that it
initialises to `0` and never updates, so every strictly negative energy
overwrites the selected cutoff and the last negative candidate in sweep
order wins, not the global minimum. -/
theorem check_energy_example_selects_30 :
    stageSelected (check_energy (some exampleCandidates)) =
      some (.str "30") ∧ PyVal.str "30" ≠ PyVal.str "20" :=
  ⟨by decide, by decide⟩

/-- C1, amended. For every candidate set all of whose trials finished
ok, the stage's selection returns the parameter value of the last
candidate in sweep order whose energy is strictly negative, defaulting
to the integer `0` when no candidate's energy is negative. -/
theorem check_energy_selects_last_negative
    (trials : List (String × ETrial))
    (hok : ∀ p ∈ trials, p.2.finished_ok = true) :
    stageSelected (check_energy (some trials)) =
      some (lastNegCutoff trials) := by
  have h := checkEnergyLoop_passed trials (.int 0) [] hok
  simpa [check_energy, lastNegCutoff] using h

/-- C1, witness: the amended selection rule applied to a concrete sweep
with a positive-energy candidate followed by two negative ones. -/
theorem check_energy_selects_last_negative_witness :
    stageSelected (check_energy (some [("e1", ⟨true, 5, "8 Ha"⟩),
      ("e2", ⟨true, -7, "10 Ha"⟩), ("e3", ⟨true, -2, "12 Ha"⟩)])) =
      some (lastNegCutoff [("e1", ⟨true, 5, "8 Ha"⟩),
        ("e2", ⟨true, -7, "10 Ha"⟩), ("e3", ⟨true, -2, "12 Ha"⟩)]) :=
  check_energy_selects_last_negative _ (by decide)

/-- C2, code bug. Two distinct spacings (`3/5` and `51/100`) derive to
the same mesh `2 2 2` on the unit reciprocal lattice, yet `run_kspacing`
submits a trial for both: the guard
`if kpoints not in kpoint_mesh[:][1]` tests the new mesh string against
element 1 of a copy of `kpoint_mesh`, which is the seed string `''`
forever, so the intended deduplication never skips anything. The spec
(and the code's own guard-plus-append structure) intends exactly one
submission per distinct mesh. -/
theorem run_kspacing_resubmits_duplicate_mesh :
    (3 / 5 : ℚ) ≠ 51 / 100 ∧
    meshString (derive (1, 1, 1) (3 / 5)) =
      meshString (derive (1, 1, 1) (51 / 100)) ∧
    run_kspacing (fun s => meshString (derive (1, 1, 1) s)) (.int 0)
      [3 / 5, 51 / 100] 0 =
      [⟨0, 3 / 5, .int 0, "2 2 2"⟩, ⟨1, 51 / 100, .int 0, "2 2 2"⟩] := by
  have h1 : derive (1, 1, 1) (3 / 5) = (2, 2, 2) := by
    norm_num [derive]
    rw [Int.ceil_eq_iff]
    norm_num
  have h2 : derive (1, 1, 1) (51 / 100) = (2, 2, 2) := by
    norm_num [derive]
    rw [Int.ceil_eq_iff]
    norm_num
  refine ⟨by norm_num, by rw [h1, h2], ?_⟩
  simp only [run_kspacing, runKspacingLoop, h1, h2]
  rfl

/-- C5, counterexample. The spec says the run is complete exactly when
the final output line is the exact sentinel line `AiiDA DONE`; but the
source tests `'AiiDA DONE' in output_lines[-1]`, a substring check, so a
final line `"text AiiDA DONE extra"` — which is not the exact sentinel
line — is treated as complete and the parser returns `ExitCode(0)` with
an emitted result instead of `ERROR_OUTPUT_STDOUT_INCOMPLETE`. -/
theorem parse_sentinel_counterexample :
    parse ⟨"aiida.out", "", false, ["aiida.out", "aiida.err"],
        ["text AiiDA DONE extra"], []⟩ =
      .ok (.done, some ⟨none, none⟩) ∧
    "text AiiDA DONE extra" ≠ "AiiDA DONE" :=
  ⟨rfl, by decide⟩

/-- C5, amended. For every retrieved file set containing the expected
files and a non-empty output file, the parser treats the run as complete
exactly when the final output line contains `AiiDA DONE` as a substring;
for any final line not containing the sentinel (a trailing blank line
included) it returns `ERROR_OUTPUT_STDOUT_INCOMPLETE` and emits no
parsed result. -/
theorem parse_sentinel_amended (inp : ParseInput)
    (hfiles : filesOk inp = true) (hne : inp.outputLines ≠ []) :
    parse inp = .ok (.stdoutIncomplete, none) ↔
      ∃ lastLine, inp.outputLines.getLast? = some lastLine ∧
        pyStrIn "AiiDA DONE" lastLine = false := by
  obtain ⟨lastLine, hl⟩ :=
    Option.isSome_iff_exists.mp (List.getLast?_isSome.mpr hne)
  rw [parse_filesOk inp hfiles, parseSentinelPhase_some inp lastLine hl]
  by_cases hs : pyStrIn "AiiDA DONE" lastLine = false
  · rw [if_pos hs]
    exact iff_of_true rfl ⟨lastLine, hl, hs⟩
  · rw [if_neg hs]
    refine iff_of_false ?_ ?_
    · rcases parseResultPhase_shape inp with ⟨e, he⟩ | ⟨rd, hrd⟩
      · rw [he]
        simp
      · rw [hrd]
        simp
    · rintro ⟨y, hy, hsy⟩
      rw [hl] at hy
      exact hs ((Option.some.injEq _ _).mp hy ▸ hsy)

/-- C5, witness: the amended sentinel rule applied at a concrete input
whose output file's last line is blank. -/
theorem parse_sentinel_amended_witness :
    parse ⟨"aiida.out", "", false, ["aiida.out", "aiida.err"], [""], []⟩ =
      .ok (.stdoutIncomplete, none) :=
  (parse_sentinel_amended
      ⟨"aiida.out", "", false, ["aiida.out", "aiida.err"], [""], []⟩
      (by decide) (by decide)).mpr ⟨"", rfl, by decide⟩

/-- C6, counterexample. The spec says a stage with an empty candidate
set fails fast with a structured `NoCandidatesError`; in the source no
such error exists: with an empty `energy_list`, `run_energy` never sends
a future to the context, so `check_energy`'s access to
`self.ctx.energy` raises an uncaught `AttributeError` — the workchain
excepts (modelled as `SweepOutcome.excepted`), which is not a structured
failure, and no parameter value is selected. -/
theorem runSweep_empty_sweep_counterexample :
    runSweep emptySweepInput = ⟨[], none, [], .excepted⟩ ∧
    check_energy (stage1Ctx emptySweepInput) = .excepted :=
  ⟨rfl, rfl⟩

/-- C6, amended. For every sweep whose energy sweep specification has
zero entries, the trial context namespace is never created, the check
step crashes with an uncaught `AttributeError` (the workchain excepts
rather than raising any structured `NoCandidatesError`, which does not
exist in the source), and no parameter value is selected or suggested. -/
theorem runSweep_empty_sweep_amended (ksl : List ℚ) (mf : ℚ → String)
    (env : Nat → Outcome) :
    runSweep ⟨[], ksl, mf, env⟩ = ⟨[], none, [], .excepted⟩ ∧
      stage1Ctx ⟨[], ksl, mf, env⟩ = none ∧
      check_energy (stage1Ctx ⟨[], ksl, mf, env⟩) = .excepted :=
  ⟨rfl, rfl, rfl⟩

/-- C7. Modelled from the spec (the mesh derivation lives in aiida-core,
outside this repository): `derive` is deterministic — equal inputs give
equal meshes — and antitone in the spacing: for spacings `s2 < s1` over
the same lattice of nonnegative reciprocal vector lengths, no component
of the mesh derived for `s2` is smaller than the corresponding component
derived for `s1`. -/
theorem derive_deterministic_and_antitone (L : ℚ × ℚ × ℚ) (s1 s2 : ℚ)
    (hL : 0 ≤ L.1 ∧ 0 ≤ L.2.1 ∧ 0 ≤ L.2.2) (h2 : 0 < s2) (h12 : s2 < s1) :
    derive L s1 = derive L s1 ∧
    (derive L s1).1 ≤ (derive L s2).1 ∧
    (derive L s1).2.1 ≤ (derive L s2).2.1 ∧
    (derive L s1).2.2 ≤ (derive L s2).2.2 := by
  have h12le : s2 ≤ s1 := h12.le
  have comp : ∀ l : ℚ, 0 ≤ l → max 1 ⌈l / s1⌉ ≤ max 1 ⌈l / s2⌉ := by
    intro l hl
    have h1 : 0 < s1 := lt_of_lt_of_le h2 h12le
    have hdiv : l / s1 ≤ l / s2 := by gcongr
    exact max_le_max le_rfl (Int.ceil_le_ceil hdiv)
  exact ⟨rfl, comp L.1 hL.1, comp L.2.1 hL.2.1, comp L.2.2 hL.2.2⟩

/-- C7, witness: determinism and antitonicity at the unit lattice for
spacings `1` and `1/2`. -/
theorem derive_deterministic_and_antitone_witness :
    derive (1, 1, 1) 1 = derive (1, 1, 1) 1 ∧
    (derive (1, 1, 1) 1).1 ≤ (derive (1, 1, 1) (1/2)).1 ∧
    (derive (1, 1, 1) 1).2.1 ≤ (derive (1, 1, 1) (1/2)).2.1 ∧
    (derive (1, 1, 1) 1).2.2 ≤ (derive (1, 1, 1) (1/2)).2.2 :=
  derive_deterministic_and_antitone (1, 1, 1) 1 (1/2)
    (by norm_num) (by norm_num) (by norm_num)

/-- C8. The parser returns `ERROR_MISSING_OUTPUT_FILES` (emitting no
result) exactly when some expected output artifact — the output file,
plus the results file when the input parameters request one — is absent
from the retrieved file set; upstream, a nonzero exit code surfaces the
trial as failed. -/
theorem parse_missing_files_iff (inp : ParseInput) :
    parse inp = .ok (.missingOutputFiles, none) ↔
      ∃ f ∈ filesExpected inp, f ∉ inp.retrieved := by
  by_cases hf : filesOk inp = true
  · refine iff_of_false ?_ ?_
    · rw [parse_filesOk inp hf]
      rcases parseSentinelPhase_shape inp with ⟨e, he⟩ | he | ⟨rd, hrd⟩
      · rw [he]
        simp
      · rw [he]
        simp
      · rw [hrd]
        simp
    · rintro ⟨f, hfe, hfr⟩
      have hmem : ∀ g ∈ filesExpected inp, g ∈ inp.retrieved := by
        intro g hg
        have := List.all_eq_true.mp hf g hg
        simpa using this
      exact hfr (hmem f hfe)
  · have hf' : filesOk inp = false := by
      revert hf
      cases hfo : filesOk inp <;> simp
    have hparse : parse inp = .ok (.missingOutputFiles, none) := by
      unfold parse
      rw [if_pos hf']
    have hrhs : ∃ f ∈ filesExpected inp, f ∉ inp.retrieved := by
      have := List.all_eq_false.mp hf'
      rcases this with ⟨f, hfe, hfr⟩
      exact ⟨f, hfe, by simpa using hfr⟩
    exact iff_of_true hparse hrhs

/-- C9, code bug. The spec says an input parameter set with no `run`
section fails with exit code `202 NO_RUN_TYPE_SPECIFIED` before any job
is launched; the source instead evaluates `list(run_type.keys())[0]` on
the `None` returned by `parameters.pop('run', None)`, raising an
uncaught `AttributeError` before its own `if run_type is None` guard —
which in any case only evaluates the exit code without returning it. -/
theorem prepare_no_run_type_raises :
    prepare_for_submission [("electrons", [("cutoff", "30 Ry")])] =
      .error (.attributeError "keys") ∧ NO_RUN_TYPE_SPECIFIED = 202 :=
  ⟨rfl, rfl⟩

/-- C10. When the expected files are retrieved but the output file has
zero lines, the completion check `output_lines[-1]` indexes an empty
list and `parse` raises an uncaught `IndexError` instead of returning
any exit code: the parser is total only when the output file has at
least one line. -/
theorem parse_empty_output_raises (inp : ParseInput)
    (hfiles : filesOk inp = true) (hempty : inp.outputLines = []) :
    parse inp = .error .indexError := by
  rw [parse_filesOk inp hfiles]
  exact parseSentinelPhase_none inp (by rw [hempty]; rfl)

/-- C10, witness: the empty-output crash at a concrete input. -/
theorem parse_empty_output_raises_witness :
    parse ⟨"aiida.out", "", false, ["aiida.out", "aiida.err"], [], []⟩ =
      .error .indexError :=
  parse_empty_output_raises
    ⟨"aiida.out", "", false, ["aiida.out", "aiida.err"], [], []⟩ rfl rfl

/-- C3. For every sweep with pairwise distinct Stage-1 context keys (the
spec's label-uniqueness invariant) in which at least one Stage-1 trial
does not finish successfully, the sweep terminates with exit code
`401 INQ_CALCULATION_FAILED` reporting a failing trial's label, Stage 2
submits zero trials, and no Stage-1 selection — hence no `suggested`
output — is produced. -/
theorem sweep_stage1_failure_short_circuit (inp : SweepInput)
    (hnd : ((run_energy inp.energy_list).map (fun s => s.ctxKey)).Nodup)
    (hfail : ∃ s ∈ run_energy inp.energy_list,
      (inp.env s.idx).finished_ok = false) :
    ∃ s ∈ run_energy inp.energy_list,
      (inp.env s.idx).finished_ok = false ∧
      (runSweep inp).outcome = .calcFailed1 401 s.ctxKey ∧
      (runSweep inp).stage2Subs = [] ∧
      (runSweep inp).selectedCutoff = none := by
  obtain ⟨s0, hs0, hf0⟩ := hfail
  have hnonempty : run_energy inp.energy_list ≠ [] :=
    List.ne_nil_of_mem hs0
  have hctx : stage1Ctx inp =
      some ((run_energy inp.energy_list).map
        (fun s => (s.ctxKey, (⟨(inp.env s.idx).finished_ok,
          (inp.env s.idx).energy, s.cutoff⟩ : ETrial)))) := by
    unfold stage1Ctx
    rw [if_neg (by simp [List.isEmpty_iff, hnonempty])]
    rw [foldl_toContext (fun s => s.ctxKey) (run_energy inp.energy_list)
      [] (by simp) hnd]
    simp [List.map_map, Function.comp]
  have hexm : ∃ p ∈ (run_energy inp.energy_list).map
      (fun s => (s.ctxKey, (⟨(inp.env s.idx).finished_ok,
        (inp.env s.idx).energy, s.cutoff⟩ : ETrial))),
      p.2.finished_ok = false :=
    ⟨_, List.mem_map_of_mem _ hs0, hf0⟩
  obtain ⟨p, hp, hpf, heq⟩ := checkEnergyLoop_failed _ 0 (.int 0) [] hexm
  have hcheck : check_energy (stage1Ctx inp) = .failed 401 p.1 := by
    rw [hctx]
    exact heq
  obtain ⟨s, hs, hgs⟩ := List.mem_map.mp hp
  have htrace : runSweep inp =
      ⟨run_energy inp.energy_list, none, [], .calcFailed1 401 p.1⟩ := by
    unfold runSweep
    rw [hcheck]
  refine ⟨s, hs, ?_, ?_, ?_, ?_⟩
  · have : p.2.finished_ok = (inp.env s.idx).finished_ok := by
      rw [← hgs]
    rw [← this]
    exact hpf
  · rw [htrace]
    have : p.1 = s.ctxKey := by rw [← hgs]
    rw [this]
  · rw [htrace]
  · rw [htrace]

/-- C3, witness: the short-circuit at a concrete two-trial sweep whose
first trial fails. -/
theorem sweep_stage1_failure_short_circuit_witness :
    ∃ s ∈ run_energy sweepFailInput.energy_list,
      (sweepFailInput.env s.idx).finished_ok = false ∧
      (runSweep sweepFailInput).outcome = .calcFailed1 401 s.ctxKey ∧
      (runSweep sweepFailInput).stage2Subs = [] ∧
      (runSweep sweepFailInput).selectedCutoff = none :=
  sweep_stage1_failure_short_circuit sweepFailInput (by decide) (by decide)

/-- C4. Every Stage-2 submission of every sweep carries an energy cutoff
equal to the value Stage 1's check selected (never the baseline
parameters' raw cutoff, since `run_kspacing` rebuilds the `electrons`
section from the selection alone), and a Stage-2 submission exists only
once that selection has been computed. -/
theorem sweep_stage2_carries_selected_cutoff (inp : SweepInput)
    (s : KSub) (hs : s ∈ (runSweep inp).stage2Subs) :
    ∃ c, stageSelected (check_energy (stage1Ctx inp)) = some c ∧
      s.cutoff = c ∧ (runSweep inp).selectedCutoff = some c := by
  rcases hcheck : check_energy (stage1Ctx inp) with ⟨code, label⟩ | _ |
    ⟨cut, res⟩
  · exfalso
    have hempty : (runSweep inp).stage2Subs = [] := by
      unfold runSweep
      rw [hcheck]
    rw [hempty] at hs
    exact List.not_mem_nil s hs
  · exfalso
    have hempty : (runSweep inp).stage2Subs = [] := by
      unfold runSweep
      rw [hcheck]
    rw [hempty] at hs
    exact List.not_mem_nil s hs
  · refine ⟨cut, rfl, ?_, ?_⟩
    · have h2 : (runSweep inp).stage2Subs = run_kspacing inp.mesh cut
          inp.kspacing_list (run_energy inp.energy_list).length := by
        unfold runSweep
        rw [hcheck]
      rw [h2] at hs
      exact runKspacingLoop_cutoff inp.mesh cut inp.kspacing_list _ _ []
        (fun u hu => absurd hu (List.not_mem_nil u)) s hs
    · unfold runSweep
      rw [hcheck]

/-- C4, witness: the single Stage-2 submission of a concrete successful
sweep carries the cutoff Stage 1 selected. -/
theorem sweep_stage2_carries_selected_cutoff_witness :
    ∃ c, stageSelected (check_energy (stage1Ctx sweepOkInput)) = some c ∧
      KSub.cutoff ⟨1, 2, .str "8 Ha", "2 2 2"⟩ = c ∧
      (runSweep sweepOkInput).selectedCutoff = some c :=
  sweep_stage2_carries_selected_cutoff sweepOkInput
    ⟨1, 2, .str "8 Ha", "2 2 2"⟩ (by decide)

end AiidaInq
